import Mathlib

/-!
Verification development for the go-viewset repository: a shallow embedding
of the query-parameter extraction pipeline (pagination, filtering, ordering),
the response envelope, and the generic CRUD handlers (List, Retrieve, Update),
together with theorems about the repository's documented behaviour.

Conventions of the embedding:
  - Go int is modelled as Int (strconv.Atoi rejects values outside the
    64-bit range, which the model reproduces).
  - An HTTP request's parsed query string (net/url.Values) is an association
    list from key to the ordered list of values supplied for that key; keys
    are distinct because url.Values is a map.
  - The database is a list of rows. gorm.DB.First with a string id is
    dispatched the way gorm builds conditions: an id its numeric check
    accepts resolves by primary key against the store, while any other
    string is rendered as a raw SQL condition whose outcome (database
    error, no row, or even an arbitrary row for SQL-valid expressions) is
    an explicit parameter; storage faults are injected through an
    Option String parameter (none = the call succeeds at the storage
    layer).
  - Request-body binding (ShouldBindJSON) honours the User model's binding
    tags: Name is required and Email is required and must pass the email
    format rule, the format rule itself being an abstract parameter.
  - Each handler returns the list of response envelopes it writes, so that
    "exactly one envelope per request" is an actual theorem.
-/

/-- A parsed URL query string: key to ordered list of supplied values. -/
abbrev Query := List (String × List String)

/-- Models gin's Context.Query (net/url Values.Get): the first value under
the key, or the empty string when the key is absent. -/
def getQuery (q : Query) (k : String) : String :=
  match q.lookup k with
  | some vs => vs.headD ""
  | none => ""

/-- Numeric value of a list of decimal digit characters. -/
def digitsVal (ds : List Char) : Nat :=
  ds.foldl (fun acc c => acc * 10 + (c.toNat - 48)) 0

/-- Second stage of Atoi: a non-empty all-digit tail within int64 range. -/
def atoiDigits (neg : Bool) (ds : List Char) : Option Int :=
  if ds.isEmpty then none
  else if ds.all (fun c => c.isDigit) then
    let v : Int := if neg then -(digitsVal ds : Int) else (digitsVal ds : Int)
    if v < -(2 ^ 63) ∨ 2 ^ 63 - 1 < v then none else some v
  else none

/-- Models Go strconv.Atoi: optional sign, one or more decimal digits, value
within the 64-bit int range; every other input yields an error (none). -/
def atoi (s : String) : Option Int :=
  match s.data with
  | [] => none
  | c :: rest =>
    if c = '-' then atoiDigits true rest
    else if c = '+' then atoiDigits false rest
    else atoiDigits false (c :: rest)

/-- PaginationParams from the pagination utilities (EXAMPLES.md lines
500-506): the per-request pagination intent. -/
structure PaginationParams where
  Page : Int
  PageSize : Int
  Offset : Int
  Limit : Int
deriving DecidableEq, Repr

/-- The "page" extraction step of GetPaginationParams: the default 1 is kept
unless a numeric value greater than 0 is supplied. -/
def pageOf (q : Query) : Int :=
  let s := getQuery q "page"
  if s ≠ "" then
    match atoi s with
    | some page => if page > 0 then page else 1
    | none => 1
  else 1

/-- The "page_size" extraction step of GetPaginationParams: the default 10 is
kept unless a numeric value greater than 0 is supplied, which is clamped to
at most 100. -/
def pageSizeOf (q : Query) : Int :=
  let s := getQuery q "page_size"
  if s ≠ "" then
    match atoi s with
    | some ps => if ps > 0 then (if ps > 100 then 100 else ps) else 10
    | none => 10
  else 10

/-- The "limit" extraction step of GetPaginationParams: 0 (meaning "no limit
supplied") unless a numeric value greater than 0 is supplied, which is
clamped to at most 100. -/
def limitOf (q : Query) : Int :=
  let s := getQuery q "limit"
  if s ≠ "" then
    match atoi s with
    | some l => if l > 0 then (if l > 100 then 100 else l) else 0
    | none => 0
  else 0

/-- The "offset" extraction step of GetPaginationParams: 0 unless a numeric
value of at least 0 is supplied. -/
def offsetOf (q : Query) : Int :=
  let s := getQuery q "offset"
  if s ≠ "" then
    match atoi s with
    | some o => if o ≥ 0 then o else 0
    | none => 0
  else 0

/-- GetPaginationParams (EXAMPLES.md lines 512-564): extracts page,
page_size, limit, offset; when a positive limit was supplied, PageSize is
taken from it and Page is derived from Offset only when Offset is positive;
otherwise Offset and Limit are derived from Page and PageSize. -/
def GetPaginationParams (q : Query) : PaginationParams :=
  let page := pageOf q
  let pageSize := pageSizeOf q
  let limit := limitOf q
  let offset := offsetOf q
  if limit > 0 then
    { Page := if offset > 0 then offset / limit + 1 else page,
      PageSize := limit, Offset := offset, Limit := limit }
  else
    { Page := page, PageSize := pageSize,
      Offset := (page - 1) * pageSize, Limit := pageSize }

/-- FilterParams from filter.go (src/unnamed/part_004 lines 11-15). -/
structure FilterParams where
  Filters : List (String × String)
  OrderBy : String
  OrderDir : String
deriving DecidableEq, Repr

/-- The reserved query keys always excluded from equality filters
(src/unnamed/part_004 lines 27-34). -/
def reservedKeys : List String :=
  ["page", "page_size", "limit", "offset", "order_by", "ordering"]

/-- Whether a key is excluded from the equality filters: reserved, or in the
caller-supplied exclusion list. -/
def excludedKey (ex : List String) (k : String) : Bool :=
  reservedKeys.contains k || ex.contains k

/-- The equality-filter part of GetFilterParams: every non-excluded query
key with at least one value is mapped to its first value
(src/unnamed/part_004 lines 42-50). -/
def filtersOf (q : Query) (ex : List String) : List (String × String) :=
  (q.filter (fun kv => !excludedKey ex kv.1 && !kv.2.isEmpty)).map
    (fun kv => (kv.1, kv.2.headD ""))

/-- Models Go strings.ToUpper on ASCII input (Char.toUpper uppercases the
ASCII letters and leaves every other character unchanged). -/
def toUpperA (s : String) : String := ⟨s.data.map Char.toUpper⟩

/-- Splitter under fieldsGo: cur is the reversed run being read. -/
def fieldsAux (cur : List Char) : List Char → List (List Char)
  | [] => if cur.isEmpty then [] else [cur.reverse]
  | c :: rest =>
    if c.isWhitespace then
      if cur.isEmpty then fieldsAux [] rest
      else cur.reverse :: fieldsAux [] rest
    else fieldsAux (c :: cur) rest

/-- Models Go strings.Fields for ASCII whitespace: the maximal non-empty
runs of non-whitespace characters, in order. -/
def fieldsGo (s : String) : List String :=
  (fieldsAux [] s.data).map (fun cs => ⟨cs⟩)

/-- The ordering part of GetFilterParams (src/unnamed/part_004 lines 52-74):
order_by is "field dir" with the direction uppercased (ASC when missing);
otherwise ordering is a DRF-style name with a leading minus meaning DESC. -/
def orderIntentOf (q : Query) : String × String :=
  let ob := getQuery q "order_by"
  if ob ≠ "" then
    match fieldsGo ob with
    | [] => ("", "")
    | f :: rest =>
      match rest with
      | [] => (f, "ASC")
      | d :: _ => (f, toUpperA d)
  else
    let od := getQuery q "ordering"
    if od ≠ "" then
      match od.data with
      | '-' :: rest => (⟨rest⟩, "DESC")
      | _ => (od, "ASC")
    else ("", "")

/-- The final direction validation of GetFilterParams (src/unnamed/part_004
lines 77-79): a non-empty direction other than ASC and DESC becomes ASC. -/
def normalizeDir (d : String) : String :=
  if d ≠ "" ∧ d ≠ "ASC" ∧ d ≠ "DESC" then "ASC" else d

/-- GetFilterParams (src/unnamed/part_004 lines 21-82). -/
def GetFilterParams (q : Query) (ex : List String) : FilterParams :=
  let od := orderIntentOf q
  { Filters := filtersOf q ex, OrderBy := od.1,
    OrderDir := normalizeDir od.2 }

/-- Whether a character is kept by sanitizeOrderBy: letters, digits,
underscore and dot (src/unnamed/part_004 lines 111-112). -/
def isOrderByChar (r : Char) : Bool :=
  ('a' ≤ r && r ≤ 'z') || ('A' ≤ r && r ≤ 'Z') ||
  ('0' ≤ r && r ≤ '9') || r = '_' || r = '.'

/-- sanitizeOrderBy (src/unnamed/part_004 lines 107-117): a strings.Builder
loop appending exactly the characters in the allowed set. -/
def sanitizeOrderBy (field : String) : String :=
  ⟨field.data.foldl (fun acc r => if isOrderByChar r then acc ++ [r] else acc) []⟩

/-- The User model (src/unnamed/part_001): the JSON-bindable business
fields plus the integer primary key. The gorm-managed time fields
(CreatedAt, UpdatedAt, DeletedAt) carry no information for the verified
properties and are omitted. -/
structure User where
  ID : Nat
  Name : String
  Email : String
  Status : String
  Age : Int
  Phone : String
deriving DecidableEq, Repr

/-- The zero value of User: what reflect.New of the model type yields. -/
def zeroUser : User := { ID := 0, Name := "", Email := "", Status := "",
                         Age := 0, Phone := "" }

/-- The column value of a User row under a query-supplied field name, as the
storage engine compares it in an equality WHERE clause; an unknown column
matches nothing. -/
def fieldVal (u : User) : String → Option String
  | "id" => some (toString u.ID)
  | "name" => some u.Name
  | "email" => some u.Email
  | "status" => some u.Status
  | "age" => some (toString u.Age)
  | "phone" => some u.Phone
  | _ => none

/-- One equality filter entry "key = ?" holds of a row. -/
def rowMatches (u : User) (f : String × String) : Bool :=
  fieldVal u f.1 == some f.2

/-- All equality filters hold of a row (the WHERE clauses are ANDed). -/
def matchesAll (fs : List (String × String)) (u : User) : Bool :=
  fs.all (rowMatches u)

/-- Insert a row into a list sorted by the given Boolean order. -/
def insertSorted (le : User → User → Bool) (u : User) : List User → List User
  | [] => [u]
  | v :: vs => if le u v then u :: v :: vs else v :: insertSorted le u vs

/-- Stable insertion sort by the given Boolean order, modelling the single
ORDER BY clause the storage engine applies. -/
def sortRows (le : User → User → Bool) (rows : List User) : List User :=
  rows.foldr (insertSorted le) []

/-- The row order induced by the sanitized order field and direction, as a
Boolean order on the column's rendered value. -/
def orderLe (fld dir : String) (a b : User) : Bool :=
  let ka := (fieldVal a (sanitizeOrderBy fld)).getD ""
  let kb := (fieldVal b (sanitizeOrderBy fld)).getD ""
  if dir = "DESC" then !(decide (ka < kb)) else !(decide (kb < ka))

/-- ApplyFilters (src/unnamed/part_004 lines 85-104) read against a list of
rows: one ANDed equality predicate per filter entry, then at most one
ORDER BY on the sanitized order field. -/
def ApplyFilters (params : FilterParams) (rows : List User) : List User :=
  let filtered := rows.filter (matchesAll params.Filters)
  if params.OrderBy ≠ "" then
    sortRows (orderLe params.OrderBy params.OrderDir) filtered
  else filtered

/-- ApplyPagination (EXAMPLES.md lines 567-569) read against a list of rows:
OFFSET then LIMIT. -/
def ApplyPagination (params : PaginationParams) (rows : List User) : List User :=
  (rows.drop params.Offset.toNat).take params.Limit.toNat

/-- Pagination envelope (internal/utils/response.go lines 18-22). -/
structure Pagination where
  Page : Int
  PageSize : Int
  Total : Int
deriving DecidableEq, Repr

/-- BuildPagination (EXAMPLES.md lines 579-585). -/
def BuildPagination (params : PaginationParams) (total : Int) : Pagination :=
  { Page := params.Page, PageSize := params.PageSize, Total := total }

/-- The response envelope written by a single-entity endpoint
(internal/utils/response.go): HTTP status, application code, message, data. -/
structure Response where
  httpStatus : Nat
  code : Int
  msg : String
  data : Option User
deriving DecidableEq, Repr

/-- utils.Success (response.go lines 25-31): HTTP 200, code 0. -/
def successR (d : Option User) : Response :=
  { httpStatus := 200, code := 0, msg := "success", data := d }

/-- utils.BadRequest (response.go lines 60-62): HTTP 400, code 400. -/
def badRequestR (m : String) : Response :=
  { httpStatus := 400, code := 400, msg := m, data := none }

/-- utils.NotFound (response.go lines 65-67): HTTP 404, code 404. -/
def notFoundR (m : String) : Response :=
  { httpStatus := 404, code := 404, msg := m, data := none }

/-- utils.InternalServerError (response.go lines 70-72): HTTP 500, code 500. -/
def internalErrorR (m : String) : Response :=
  { httpStatus := 500, code := 500, msg := m, data := none }

/-- The envelope of a List endpoint (utils.SuccessWithPagination or an error
helper): data is a list of rows and pagination is attached on success. -/
structure ListResponse where
  code : Int
  msg : String
  data : List User
  pagination : Option Pagination
deriving DecidableEq, Repr

/-- Outcome of a gorm.DB.First call: a row, record-not-found, or another
storage fault. -/
inductive FirstResult where
  | found (u : User)
  | notFoundE
  | dbError (e : String)
deriving DecidableEq, Repr

/-- Whether a row is the one selected by a primary-key lookup with the given
raw id string (the decimal rendering of the key matches the string). -/
def idMatches (u : User) (id : String) : Bool := toString u.ID == id

/-- The primary-key branch of gorm DB.First(dest, id) against the store,
with an injectable storage fault: the first row whose key's decimal
rendering matches the id string, record-not-found when none does. This is
exact for the canonical decimal id strings of stored rows — the domain on
which the Update theorems invoke it; the full dispatch of DB.First over
arbitrary strings, including non-numeric raw conditions, is dbFirstGorm. -/
def dbFirst (store : List User) (fault : Option String) (id : String) : FirstResult :=
  match fault with
  | some e => .dbError e
  | none =>
    match store.find? (fun u => idMatches u id) with
    | some u => .found u
    | none => .notFoundE

/-- Handler message strings from src/unnamed/part_000. -/
def msgMissingId : String := "缺少 ID 参数"

/-- Message written when a primary-key lookup matches no row. -/
def msgNotExist : String := "记录不存在"

/-- Message of the query-failure InternalServerError path. -/
def queryFailMsg (e : String) : String := "查询失败: " ++ e

/-- Message of the body-binding BadRequest path. -/
def bindFailMsg (e : String) : String := "请求数据格式错误: " ++ e

/-- Message of the Updates-failure InternalServerError path. -/
def updateFailMsg (e : String) : String := "更新失败: " ++ e

/-- gorm's Updates with a struct argument: each non-zero field of the
payload overwrites the corresponding column of the row; zero-valued fields
("" and 0) are left out of the SET clause. The primary key comes from the
row the update is applied to. -/
def mergeNonZero (existing payload : User) : User :=
  { ID := existing.ID,
    Name := if payload.Name ≠ "" then payload.Name else existing.Name,
    Email := if payload.Email ≠ "" then payload.Email else existing.Email,
    Status := if payload.Status ≠ "" then payload.Status else existing.Status,
    Age := if payload.Age ≠ 0 then payload.Age else existing.Age,
    Phone := if payload.Phone ≠ "" then payload.Phone else existing.Phone }

/-- GenericViewSet.Update (src/unnamed/part_000 lines 201-237) for the User
model. bind is the outcome of ShouldBindJSON (for bodies rather than
injected outcomes, bindUser); the three Option String
parameters inject storage faults into the initial DB.First, the Updates
call, and the final re-fetch. Returns the envelopes written and the store
after the handler. The error of the final re-fetch is ignored by the source,
so on that path the freshly allocated zero-valued instance is returned. -/
def Update (store : List User) (id : String) (bind : Except String User)
    (firstFault updFault refetchFault : Option String) :
    List Response × List User :=
  if id = "" then ([badRequestR msgMissingId], store)
  else
    match dbFirst store firstFault id with
    | .dbError e => ([internalErrorR (queryFailMsg e)], store)
    | .notFoundE => ([notFoundR msgNotExist], store)
    | .found existing =>
      match bind with
      | .error e => ([badRequestR (bindFailMsg e)], store)
      | .ok payload =>
        match updFault with
        | some e => ([internalErrorR (updateFailMsg e)], store)
        | none =>
          let newStore := store.map (fun u =>
            if u.ID == existing.ID then mergeNonZero u payload else u)
          let result := match dbFirst newStore refetchFault id with
            | .found u => u
            | _ => zeroUser
          ([successR (some result)], newStore)

/-- GenericViewSet.List (src/unnamed/part_000 lines 116-151) for the User
model: extract pagination and filters, apply filters, count the total on the
filtered query, apply pagination, run Find (whose fault is injectable), and
answer with the page and the pagination envelope. -/
def genericList (store : List User) (q : Query) (findFault : Option String) :
    ListResponse :=
  let pp := GetPaginationParams q
  let fp := GetFilterParams q []
  let filtered := ApplyFilters fp store
  let total : Int := filtered.length
  let paged := ApplyPagination pp filtered
  match findFault with
  | some e => { code := 500, msg := queryFailMsg e, data := [], pagination := none }
  | none => { code := 0, msg := "success", data := paged,
              pagination := some (BuildPagination pp total) }

/-- Whether the needle occurs as a contiguous run inside the haystack. -/
def hasSub (needle : List Char) : List Char → Bool
  | [] => needle.isEmpty
  | c :: rest => needle.isPrefixOf (c :: rest) || hasSub needle rest

/-- The keyword pre-filter of UserViewSet.List: name, email or phone LIKE
the keyword (substring containment). -/
def likeAny (u : User) (kw : String) : Bool :=
  hasSub kw.data u.Name.data || hasSub kw.data u.Email.data ||
  hasSub kw.data u.Phone.data

/-- UserViewSet.List (internal/viewset/user_viewset.go lines 147-193):
like genericList, but keyword is excluded from the equality filters and
applied first as a multi-field fuzzy match; the total is counted after all
filtering and before pagination. -/
def userList (store : List User) (q : Query) (findFault : Option String) :
    ListResponse :=
  let pp := GetPaginationParams q
  let fp := GetFilterParams q ["keyword"]
  let kw := getQuery q "keyword"
  let base := if kw ≠ "" then store.filter (fun u => likeAny u kw) else store
  let filtered := ApplyFilters fp base
  let total : Int := filtered.length
  let paged := ApplyPagination pp filtered
  match findFault with
  | some e => { code := 500, msg := queryFailMsg e, data := [], pagination := none }
  | none => { code := 0, msg := "success", data := paged,
              pagination := some (BuildPagination pp total) }

/-! ## Helper lemmas -/

theorem atoi_empty : atoi "" = none := rfl

theorem length_insertSorted (le : User → User → Bool) (u : User) :
    ∀ l : List User, (insertSorted le u l).length = l.length + 1 := by
  intro l
  induction l with
  | nil => rfl
  | cons v vs ih =>
    simp only [insertSorted]
    by_cases h : le u v = true
    · rw [if_pos h]
      simp
    · rw [if_neg h]
      simp [ih]

theorem length_sortRows (le : User → User → Bool) (rows : List User) :
    (sortRows le rows).length = rows.length := by
  induction rows with
  | nil => rfl
  | cons v vs ih =>
    simp only [sortRows, List.foldr] at *
    rw [length_insertSorted, ih]
    rfl

theorem length_ApplyFilters (params : FilterParams) (rows : List User) :
    (ApplyFilters params rows).length =
      (rows.filter (matchesAll params.Filters)).length := by
  simp only [ApplyFilters]
  by_cases h : params.OrderBy ≠ ""
  · rw [if_pos h, length_sortRows]
  · rw [if_neg h]

theorem getQuery_ne_empty_of_atoi {q : Query} {k : String} {v : Int}
    (h : atoi (getQuery q k) = some v) : getQuery q k ≠ "" := by
  intro he
  rw [he, atoi_empty] at h
  exact Option.noConfusion h

theorem pageOf_eq {q : Query} {p : Int}
    (h : atoi (getQuery q "page") = some p) (hp : 0 < p) : pageOf q = p := by
  have hs := getQuery_ne_empty_of_atoi h
  simp only [pageOf, if_pos hs, h]
  exact if_pos hp

theorem pageSizeOf_eq {q : Query} {ps : Int}
    (h : atoi (getQuery q "page_size") = some ps) (h1 : 0 < ps)
    (h2 : ps ≤ 100) : pageSizeOf q = ps := by
  have hs := getQuery_ne_empty_of_atoi h
  simp only [pageSizeOf, if_pos hs, h]
  rw [if_pos h1, if_neg (by omega : ¬ps > 100)]

theorem limitOf_eq_zero {q : Query}
    (h : getQuery q "limit" = "") : limitOf q = 0 := by
  simp [limitOf, h]

theorem offsetOf_eq_zero {q : Query}
    (h : getQuery q "offset" = "") : offsetOf q = 0 := by
  simp [offsetOf, h]

/-! ## Claims -/

/-- C1: in both GenericViewSet.List and UserViewSet.List the total of the
pagination envelope is the count of the rows matching the (respective)
filters, computed on the filtered-but-unpaginated query, whatever page,
page_size, limit and offset are supplied. -/
theorem C1_total_counted_before_pagination (store : List User) (q : Query) :
    (genericList store q none).pagination =
      some { Page := (GetPaginationParams q).Page,
             PageSize := (GetPaginationParams q).PageSize,
             Total :=
               ((store.filter
                 (matchesAll (GetFilterParams q []).Filters)).length : Int) } ∧
    (userList store q none).pagination =
      some { Page := (GetPaginationParams q).Page,
             PageSize := (GetPaginationParams q).PageSize,
             Total :=
               (((if getQuery q "keyword" ≠ ""
                  then store.filter (fun u => likeAny u (getQuery q "keyword"))
                  else store).filter
                 (matchesAll (GetFilterParams q ["keyword"]).Filters)).length : Int) } := by
  constructor
  · simp only [genericList, BuildPagination]
    rw [length_ApplyFilters]
  · simp only [userList, BuildPagination]
    rw [length_ApplyFilters]

/-- C2: a request supplying numeric page at least 1 and numeric page_size in
1..100, and neither limit nor offset, extracts Offset = (page-1)*page_size
and Limit = page_size. -/
theorem C2_page_pagesize_derive_offset_limit (q : Query) (p ps : Int)
    (hp : atoi (getQuery q "page") = some p) (hp1 : 1 ≤ p)
    (hps : atoi (getQuery q "page_size") = some ps)
    (hps1 : 1 ≤ ps) (hps2 : ps ≤ 100)
    (hl : getQuery q "limit" = "") (_ho : getQuery q "offset" = "") :
    (GetPaginationParams q).Offset = (p - 1) * ps ∧
    (GetPaginationParams q).Limit = ps := by
  have h1 : limitOf q = 0 := limitOf_eq_zero hl
  have h2 : pageOf q = p := pageOf_eq hp (by omega)
  have h3 : pageSizeOf q = ps := pageSizeOf_eq hps (by omega) hps2
  simp only [GetPaginationParams, h1, h2, h3]
  norm_num

/-- C2 witness: page=3, page_size=20 yields Offset 40, Limit 20. -/
theorem C2_witness :
    (GetPaginationParams [("page", ["3"]), ("page_size", ["20"])]).Offset = 40 ∧
    (GetPaginationParams [("page", ["3"]), ("page_size", ["20"])]).Limit = 20 := by
  have h := C2_page_pagesize_derive_offset_limit
    [("page", ["3"]), ("page_size", ["20"])] 3 20
    (by decide) (by decide) (by decide) (by decide) (by decide) rfl rfl
  exact ⟨h.1.trans (by decide), h.2⟩

/-- C3 counterexample: with limit=5 supplied (and page=3, no offset), the
extractor keeps Page = 3 instead of deriving it as Offset/PageSize + 1 = 1,
so a supplied limit does not make Page derived from the offset/limit pair. -/
theorem C3_counterexample :
    getQuery [("page", ["3"]), ("limit", ["5"])] "limit" ≠ "" ∧
    (GetPaginationParams [("page", ["3"]), ("limit", ["5"])]).Page = 3 ∧
    (GetPaginationParams [("page", ["3"]), ("limit", ["5"])]).Offset /
      (GetPaginationParams [("page", ["3"]), ("limit", ["5"])]).PageSize + 1 = 1 ∧
    (3 : Int) ≠ 1 := by
  refine ⟨by decide, by decide, by decide, by decide⟩

/-- C3 amended: when a valid limit (numeric, positive, clamped to 100) is
supplied it takes precedence: Limit and PageSize equal it, Offset is the
supplied offset (or 0), and Page = Offset/PageSize + 1 only when a valid
positive offset was also supplied — otherwise Page keeps its page-derived
value. When no valid limit is supplied — even if an offset was — Offset and
Limit are derived from page/page_size. -/
theorem C3_precedence_amended (q : Query) :
    (0 < limitOf q →
      (GetPaginationParams q).Limit = limitOf q ∧
      (GetPaginationParams q).PageSize = limitOf q ∧
      (GetPaginationParams q).Offset = offsetOf q ∧
      (0 < offsetOf q →
        (GetPaginationParams q).Page = offsetOf q / limitOf q + 1) ∧
      (offsetOf q ≤ 0 → (GetPaginationParams q).Page = pageOf q)) ∧
    (limitOf q ≤ 0 →
      (GetPaginationParams q).Offset = (pageOf q - 1) * pageSizeOf q ∧
      (GetPaginationParams q).Limit = pageSizeOf q ∧
      (GetPaginationParams q).Page = pageOf q ∧
      (GetPaginationParams q).PageSize = pageSizeOf q) := by
  constructor
  · intro hl
    have hgp : GetPaginationParams q =
        { Page := if offsetOf q > 0 then offsetOf q / limitOf q + 1 else pageOf q,
          PageSize := limitOf q, Offset := offsetOf q, Limit := limitOf q } := by
      simp only [GetPaginationParams]
      rw [if_pos hl]
    rw [hgp]
    refine ⟨rfl, rfl, rfl, fun hoff => ?_, fun hoff => ?_⟩
    · show (if offsetOf q > 0 then offsetOf q / limitOf q + 1 else pageOf q) = _
      rw [if_pos hoff]
    · show (if offsetOf q > 0 then offsetOf q / limitOf q + 1 else pageOf q) = _
      rw [if_neg (by omega : ¬offsetOf q > 0)]
  · intro hl
    have hgp : GetPaginationParams q =
        { Page := pageOf q, PageSize := pageSizeOf q,
          Offset := (pageOf q - 1) * pageSizeOf q, Limit := pageSizeOf q } := by
      simp only [GetPaginationParams]
      rw [if_neg (by omega : ¬limitOf q > 0)]
    rw [hgp]
    exact ⟨rfl, rfl, rfl, rfl⟩

/-- C3 witness: limit=5 with offset=12 gives Limit 5, PageSize 5, Offset 12
and Page 12/5+1 = 3. -/
theorem C3_witness :
    (GetPaginationParams [("limit", ["5"]), ("offset", ["12"])]).Limit = 5 ∧
    (GetPaginationParams [("limit", ["5"]), ("offset", ["12"])]).PageSize = 5 ∧
    (GetPaginationParams [("limit", ["5"]), ("offset", ["12"])]).Offset = 12 ∧
    (GetPaginationParams [("limit", ["5"]), ("offset", ["12"])]).Page = 3 := by
  have h := (C3_precedence_amended [("limit", ["5"]), ("offset", ["12"])]).1
    (by decide)
  refine ⟨h.1.trans (by decide), h.2.1.trans (by decide),
    h.2.2.1.trans (by decide), (h.2.2.2.1 (by decide)).trans (by decide)⟩

/-- C4 counterexample: page_size=200 together with limit=50 returns
PageSize = 50, not the claimed clamp to 100 — a valid limit overwrites the
extracted page_size. -/
theorem C4_counterexample :
    atoi (getQuery [("page_size", ["200"]), ("limit", ["50"])] "page_size") =
      some 200 ∧
    (200 : Int) > 100 ∧
    (GetPaginationParams [("page_size", ["200"]), ("limit", ["50"])]).PageSize = 50 ∧
    (50 : Int) ≠ 100 := by
  refine ⟨by decide, by decide, by decide, by decide⟩

/-- C4 amended: when no valid limit is supplied, a supplied page_size above
100 is clamped to a returned PageSize of 100, and a non-numeric or
non-positive page_size leaves the default PageSize of 10; extraction is a
total function and never surfaces an error. (A valid limit instead
overwrites PageSize with the clamped limit.) -/
theorem C4_pagesize_clamp_amended (q : Query) (hl : limitOf q = 0) :
    ((∃ ps, atoi (getQuery q "page_size") = some ps ∧ 100 < ps) →
      (GetPaginationParams q).PageSize = 100) ∧
    ((atoi (getQuery q "page_size") = none ∨
      (∃ ps, atoi (getQuery q "page_size") = some ps ∧ ps ≤ 0)) →
      (GetPaginationParams q).PageSize = 10) := by
  have hmain : (GetPaginationParams q).PageSize = pageSizeOf q := by
    simp only [GetPaginationParams, if_neg (by omega : ¬limitOf q > 0)]
  constructor
  · rintro ⟨ps, hps, hgt⟩
    have hs := getQuery_ne_empty_of_atoi hps
    rw [hmain]
    simp only [pageSizeOf, if_pos hs, hps]
    rw [if_pos (by omega : ps > 0), if_pos (by omega : ps > 100)]
  · intro h
    rw [hmain]
    rcases h with h | ⟨ps, hps, hle⟩
    · by_cases hs : getQuery q "page_size" = ""
      · simp [pageSizeOf, hs]
      · simp only [pageSizeOf, if_pos hs, h]
    · have hs := getQuery_ne_empty_of_atoi hps
      simp only [pageSizeOf, if_pos hs, hps]
      rw [if_neg (by omega : ¬ps > 0)]

/-- C4 witness: page_size=200 with no limit clamps to 100, and a
non-numeric page_size keeps 10. -/
theorem C4_witness :
    (GetPaginationParams [("page_size", ["200"])]).PageSize = 100 ∧
    (GetPaginationParams [("page_size", ["abc"])]).PageSize = 10 := by
  refine ⟨(C4_pagesize_clamp_amended [("page_size", ["200"])] (by decide)).1
    ⟨200, by decide, by decide⟩, ?_⟩
  exact (C4_pagesize_clamp_amended [("page_size", ["abc"])] (by decide)).2
    (Or.inl (by decide))

theorem fieldsAux_ne_nil : ∀ (l cur : List Char) (x : List Char),
    x ∈ fieldsAux cur l → x ≠ [] := by
  intro l
  induction l with
  | nil =>
    intro cur x hx he
    subst he
    simp only [fieldsAux] at hx
    by_cases hc : cur.isEmpty
    · rw [if_pos hc] at hx
      exact (List.not_mem_nil _) hx
    · rw [if_neg hc] at hx
      have h2 : ([] : List Char) = cur.reverse := List.mem_singleton.mp hx
      have h3 : cur = [] := by
        have h4 := h2.symm
        rwa [List.reverse_eq_nil_iff] at h4
      rw [h3] at hc
      exact hc rfl
  | cons c rest ih =>
    intro cur x hx
    simp only [fieldsAux] at hx
    by_cases hws : c.isWhitespace
    · rw [if_pos hws] at hx
      by_cases hc : cur.isEmpty
      · rw [if_pos hc] at hx
        exact ih [] x hx
      · rw [if_neg hc] at hx
        rcases List.mem_cons.mp hx with h2 | h2
        · subst h2
          intro he
          have h3 : cur = [] := by rwa [List.reverse_eq_nil_iff] at he
          rw [h3] at hc
          exact hc rfl
        · exact ih [] x h2
    · rw [if_neg hws] at hx
      exact ih _ x hx

theorem fieldsGo_ne_empty {s x : String} (hx : x ∈ fieldsGo s) : x ≠ "" := by
  simp only [fieldsGo, List.mem_map] at hx
  obtain ⟨cs, hcs, heq⟩ := hx
  intro he
  apply fieldsAux_ne_nil s.data [] cs hcs
  have h1 : (⟨cs⟩ : String) = "" := by rw [heq]; exact he
  exact congrArg String.data h1

/-- C5: the two ordering syntaxes order_by=age desc and ordering=-age yield
the same Order Intent (field age, direction DESC), and any direction word
whose uppercasing is neither ASC nor DESC collapses to ASC, the field being
kept. -/
theorem C5_order_syntaxes_equivalent :
    (GetFilterParams [("order_by", ["age desc"])] []).OrderBy = "age" ∧
    (GetFilterParams [("order_by", ["age desc"])] []).OrderDir = "DESC" ∧
    (GetFilterParams [("ordering", ["-age"])] []).OrderBy = "age" ∧
    (GetFilterParams [("ordering", ["-age"])] []).OrderDir = "DESC" ∧
    (∀ (q : Query) (f w : String),
      fieldsGo (getQuery q "order_by") = [f, w] →
      toUpperA w ≠ "ASC" → toUpperA w ≠ "DESC" →
      (GetFilterParams q []).OrderBy = f ∧
      (GetFilterParams q []).OrderDir = "ASC") := by
  refine ⟨by decide, by decide, by decide, by decide, ?_⟩
  intro q f w h hA hD
  have hob : getQuery q "order_by" ≠ "" := by
    intro he
    rw [he] at h
    have hn : fieldsGo "" = [] := rfl
    rw [hn] at h
    exact List.noConfusion h
  have hw : w ≠ "" := by
    refine fieldsGo_ne_empty (s := getQuery q "order_by") ?_
    rw [h]
    simp
  have hw2 : toUpperA w ≠ "" := by
    intro he
    apply hw
    obtain ⟨d⟩ := w
    have hd : d.map Char.toUpper = [] := congrArg String.data he
    have hdn : d = [] := List.map_eq_nil_iff.mp hd
    rw [hdn]
  have hoi : orderIntentOf q = (f, toUpperA w) := by
    simp only [orderIntentOf]
    rw [if_pos hob, h]
  constructor
  · show (GetFilterParams q []).OrderBy = f
    simp [GetFilterParams, hoi]
  · show (GetFilterParams q []).OrderDir = "ASC"
    simp only [GetFilterParams, hoi]
    simp only [normalizeDir]
    exact if_pos ⟨hw2, hA, hD⟩

/-- C5 witness: order_by=age sideways keeps the field age and collapses the
unrecognized direction to ASC. -/
theorem C5_witness :
    (GetFilterParams [("order_by", ["age sideways"])] []).OrderBy = "age" ∧
    (GetFilterParams [("order_by", ["age sideways"])] []).OrderDir = "ASC" :=
  C5_order_syntaxes_equivalent.2.2.2.2 [("order_by", ["age sideways"])]
    "age" "sideways" (by decide) (by decide) (by decide)

theorem foldl_append_filter (l acc : List Char) :
    l.foldl (fun a r => if isOrderByChar r then a ++ [r] else a) acc =
      acc ++ l.filter isOrderByChar := by
  induction l generalizing acc with
  | nil => simp
  | cons c cs ih =>
    cases hc : isOrderByChar c
    · simp [List.filter_cons, hc, ih]
    · simp [List.filter_cons, hc, ih]

/-- C6: sanitizeOrderBy returns exactly the subsequence of characters in the
set letters, digits, underscore, dot; the injection probe collapses to
ageDROPTABLEx; an input with no allowed character yields the empty string. -/
theorem C6_sanitize_is_filter :
    (∀ s : String, sanitizeOrderBy s = ⟨s.data.filter isOrderByChar⟩) ∧
    sanitizeOrderBy "age; DROP TABLE x" = "ageDROPTABLEx" ∧
    (∀ s : String, (∀ c ∈ s.data, isOrderByChar c = false) →
      sanitizeOrderBy s = "") := by
  have hmain : ∀ s : String, sanitizeOrderBy s = ⟨s.data.filter isOrderByChar⟩ := by
    intro s
    unfold sanitizeOrderBy
    rw [foldl_append_filter]
    simp
  refine ⟨hmain, by decide, ?_⟩
  intro s h
  rw [hmain s]
  have hnil : s.data.filter isOrderByChar = [] := by
    rw [List.filter_eq_nil_iff]
    intro a ha
    simp [h a ha]
  rw [hnil]

/-- C6 witness: an input with no allowed character sanitizes to empty. -/
theorem C6_witness : sanitizeOrderBy ";) !" = "" :=
  C6_sanitize_is_filter.2.2 ";) !" (by decide)

theorem filtersOf_cons (ka : String) (vs : List String) (q : Query)
    (ex : List String) :
    filtersOf ((ka, vs) :: q) ex =
      if !excludedKey ex ka && !vs.isEmpty
      then (ka, vs.headD "") :: filtersOf q ex
      else filtersOf q ex := by
  simp only [filtersOf, List.filter_cons]
  by_cases h : (!excludedKey ex ka && !vs.isEmpty) = true
  · rw [if_pos h, if_pos h]
    rfl
  · rw [if_neg h, if_neg h]

theorem lookup_cons_pair (k ka b : String) (l : List (String × String)) :
    List.lookup k ((ka, b) :: l) =
      if k = ka then some b else List.lookup k l := by
  by_cases h : k = ka
  · subst h
    simp [List.lookup]
  · have hb : (k == ka) = false := beq_eq_false_iff_ne.mpr h
    simp [List.lookup, hb, h]

theorem lookup_filtersOf_none {q : Query} {ex : List String} {k : String}
    (hk : k ∉ q.map Prod.fst) : (filtersOf q ex).lookup k = none := by
  induction q with
  | nil => rfl
  | cons a q ih =>
    obtain ⟨ka, vs⟩ := a
    have hk1 : k ≠ ka := by
      intro he
      exact hk (by simp [he])
    have hk2 : k ∉ q.map Prod.fst := by
      intro hm
      exact hk (by simp [hm])
    rw [filtersOf_cons]
    by_cases hc : (!excludedKey ex ka && !vs.isEmpty) = true
    · rw [if_pos hc, lookup_cons_pair, if_neg hk1]
      exact ih hk2
    · rw [if_neg hc]
      exact ih hk2

theorem head_eq_of_ne_nil {vs : List String} (h : vs ≠ []) :
    vs.head? = some (vs.headD "") := by
  cases vs with
  | nil => exact absurd rfl h
  | cons x xs => rfl

theorem lookup_filtersOf (q : Query) (ex : List String) (k v : String)
    (hnd : (q.map Prod.fst).Nodup) :
    (filtersOf q ex).lookup k = some v ↔
      ∃ vs, (k, vs) ∈ q ∧ vs.head? = some v ∧ excludedKey ex k = false := by
  induction q with
  | nil => simp [filtersOf]
  | cons a q ih =>
    obtain ⟨ka, vs⟩ := a
    rcases List.nodup_cons.mp hnd with ⟨hka, hnd2⟩
    rw [filtersOf_cons]
    by_cases hcond : (!excludedKey ex ka && !vs.isEmpty) = true
    · rw [Bool.and_eq_true] at hcond
      rcases hcond with ⟨hex0, hvs0⟩
      have hcond : (!excludedKey ex ka && !vs.isEmpty) = true := by
        rw [Bool.and_eq_true]
        exact ⟨hex0, hvs0⟩
      have hex1 : excludedKey ex ka = false := by
        cases h : excludedKey ex ka
        · rfl
        · rw [h] at hex0
          exact absurd hex0 (by decide)
      have hvs1 : vs ≠ [] := by
        intro he
        rw [he] at hvs0
        exact absurd hvs0 (by decide)
      rw [if_pos hcond, lookup_cons_pair]
      by_cases hk : k = ka
      · subst hk
        rw [if_pos rfl]
        constructor
        · intro hv
          refine ⟨vs, List.mem_cons_self _ _, ?_, hex1⟩
          rw [head_eq_of_ne_nil hvs1]
          exact congrArg some (Option.some.injEq _ _ ▸ hv.symm ▸ rfl)
        · rintro ⟨vs2, hmem, hh, _⟩
          rcases List.mem_cons.mp hmem with he | hm
          · have hv2 : vs2 = vs := (Prod.mk.injEq _ _ _ _ ▸ he).2
            subst hv2
            rw [head_eq_of_ne_nil hvs1] at hh
            rw [Option.some.injEq] at hh
            rw [hh]
          · exact absurd (List.mem_map_of_mem Prod.fst hm) hka
      · rw [if_neg hk, ih hnd2]
        constructor
        · rintro ⟨vs2, hmem, hh, hexc⟩
          exact ⟨vs2, List.mem_cons_of_mem _ hmem, hh, hexc⟩
        · rintro ⟨vs2, hmem, hh, hexc⟩
          rcases List.mem_cons.mp hmem with he | hm
          · exact absurd (Prod.mk.injEq _ _ _ _ ▸ he).1 hk
          · exact ⟨vs2, hm, hh, hexc⟩
    · rw [if_neg hcond]
      by_cases hk : k = ka
      · subst hk
        rw [lookup_filtersOf_none hka]
        constructor
        · intro h
          exact Option.noConfusion h
        · rintro ⟨vs2, hmem, hh, hexc⟩
          rcases List.mem_cons.mp hmem with he | hm
          · have hv2 : vs2 = vs := (Prod.mk.injEq _ _ _ _ ▸ he).2
            subst hv2
            have hvs2 : vs2.isEmpty = false := by
              cases vs2 with
              | nil => exact absurd hh (by simp)
              | cons x xs => rfl
            rw [Bool.and_eq_true] at hcond
            simp [hexc, hvs2] at hcond
          · exact absurd (List.mem_map_of_mem Prod.fst hm) hka
      · rw [ih hnd2]
        constructor
        · rintro ⟨vs2, hmem, hh, hexc⟩
          exact ⟨vs2, List.mem_cons_of_mem _ hmem, hh, hexc⟩
        · rintro ⟨vs2, hmem, hh, hexc⟩
          rcases List.mem_cons.mp hmem with he | hm
          · exact absurd (Prod.mk.injEq _ _ _ _ ▸ he).1 hk
          · exact ⟨vs2, hm, hh, hexc⟩

/-- C7: for every query with distinct keys, the Filter Intent maps a key to
a value exactly when the key is a query key outside the reserved set and the
caller-supplied exclusions, and the value is the first supplied value of
that key. -/
theorem C7_filters_every_unreserved_first_value (q : Query) (ex : List String)
    (k v : String) (hnd : (q.map Prod.fst).Nodup) :
    (GetFilterParams q ex).Filters.lookup k = some v ↔
      ∃ vs, (k, vs) ∈ q ∧ vs.head? = some v ∧ excludedKey ex k = false := by
  have hf : (GetFilterParams q ex).Filters = filtersOf q ex := rfl
  rw [hf]
  exact lookup_filtersOf q ex k v hnd

/-- C7 witness: status maps to its first value, and the reserved key page
and the excluded key keyword are dropped. -/
theorem C7_witness :
    (GetFilterParams
      [("status", ["active", "spare"]), ("page", ["2"]), ("keyword", ["x"])]
      ["keyword"]).Filters.lookup "status" = some "active" ∧
    (GetFilterParams
      [("status", ["active", "spare"]), ("page", ["2"]), ("keyword", ["x"])]
      ["keyword"]).Filters.lookup "page" = none ∧
    (GetFilterParams
      [("status", ["active", "spare"]), ("page", ["2"]), ("keyword", ["x"])]
      ["keyword"]).Filters.lookup "keyword" = none := by
  refine ⟨?_, ?_, ?_⟩
  · exact (C7_filters_every_unreserved_first_value _ ["keyword"] "status"
      "active" (by decide)).mpr ⟨["active", "spare"], by decide, rfl, rfl⟩
  · by_contra h
    rcases Option.ne_none_iff_exists.mp h with ⟨v, hv⟩
    rcases (C7_filters_every_unreserved_first_value _ ["keyword"] "page" v
      (by decide)).mp hv.symm with ⟨vs, _, _, hexc⟩
    exact absurd hexc (by decide)
  · by_contra h
    rcases Option.ne_none_iff_exists.mp h with ⟨v, hv⟩
    rcases (C7_filters_every_unreserved_first_value _ ["keyword"] "keyword" v
      (by decide)).mp hv.symm with ⟨vs, _, _, hexc⟩
    exact absurd hexc (by decide)

/-- A sample row used to instantiate hypothesis-bearing theorems. -/
def sampleUser : User :=
  { ID := 1, Name := "张三", Email := "zhangsan@example.com",
    Status := "active", Age := 25, Phone := "13800138000" }

/-- C10: when the post-update re-fetch fails, Update still writes the
Success envelope (HTTP 200, code 0) whose data is the freshly allocated
zero-valued instance, not the persisted row — the re-fetch error is
silently ignored. -/
theorem C10_update_refetch_error_ignored (store : List User) (id : String)
    (payload existing : User) (e : String) (hid : id ≠ "")
    (hfind : store.find? (fun u => idMatches u id) = some existing) :
    (Update store id (Except.ok payload) none none (some e)).1 =
      [successR (some zeroUser)] ∧
    successR (some zeroUser) =
      { httpStatus := 200, code := 0, msg := "success", data := some zeroUser } := by
  have hdb : dbFirst store none id = FirstResult.found existing := by
    simp [dbFirst, hfind]
  refine ⟨?_, rfl⟩
  simp only [Update, if_neg hid, hdb]
  simp only [dbFirst]

/-- C10 witness: with a failing re-fetch, the response to a successful
update of row 1 is code 0 with the zero-valued user. -/
theorem C10_witness :
    (Update [sampleUser] "1" (Except.ok { zeroUser with Age := 27 })
        none none (some "connection lost")).1 =
      [successR (some zeroUser)] :=
  (C10_update_refetch_error_ignored [sampleUser] "1"
    { zeroUser with Age := 27 } sampleUser "connection lost"
    (by decide) (by decide)).1
